import Mathlib

/-!
Verification of the retrieval core of the rag-chatbot-policy repository:
document chunking (src/ingestion.py), the FAISS-backed vector store
(src/vectorstore.py), retrieval and citation assembly (src/retrieval.py),
and the ingestion endpoint logic (api.py).

Modelling conventions:
- Embedding vectors are lists of rationals (`Vec`); the external
  SentenceTransformer model is a parameter `model : String → Vec`, applied
  elementwise to a batch (the batch `encode` call maps each text to its
  vector).
- The FAISS `IndexFlatL2` is modelled by the list of its stored vectors;
  its exact brute-force search is modelled by sorting all (squared L2
  distance, position) pairs ascending by distance with a stable sort and
  taking the first k (`faissFlatL2Search`), matching the flat-L2 reference
  semantics.
- Python builtins are modelled structurally on character/element lists:
  `pySplit` models `str.split()` (split on whitespace runs, no empty
  words), `pyJoin` models `sep.join`, `pyStrip` models `str.strip()`,
  `pyEnumFrom` models `enumerate(xs, start)`.
- Machine floats are modelled by rationals; `fmt2` models the f-string
  `:.2f` formatting and `round2` models `round(x, 2)`.
- The filesystem pair (index file, metadata sidecar) is modelled by a pair
  of `Option` values handed to `initStore`, which models `__init__`.
-/

/-! ## Models of Python builtins -/

/-- Model of `enumerate(xs, start)`. -/
def pyEnumFrom (start : Nat) : List α → List (Nat × α)
  | [] => []
  | a :: l => (start, a) :: pyEnumFrom (start + 1) l

/-- Helper for `pySplit`: walk the characters, collecting the current word
(reversed) in `acc`, emitting a word at each whitespace run boundary. -/
def splitAux : List Char → List Char → List String
  | [], acc => if acc.isEmpty then [] else [String.mk acc.reverse]
  | c :: cs, acc =>
    if c.isWhitespace then
      (if acc.isEmpty then [] else [String.mk acc.reverse]) ++ splitAux cs []
    else splitAux cs (c :: acc)

/-- Model of Python `text.split()`: split on whitespace runs, producing no
empty words. -/
def pySplit (s : String) : List String := splitAux s.data []

/-- Model of Python `sep.join(xs)`. -/
def pyJoin (sep : String) : List String → String
  | [] => ""
  | [x] => x
  | x :: xs => x ++ sep ++ pyJoin sep xs

/-- Model of Python `s.strip()`: remove leading and trailing whitespace. -/
def pyStrip (s : String) : String :=
  String.mk (((s.data.dropWhile Char.isWhitespace).reverse.dropWhile Char.isWhitespace).reverse)

/-! ## Data model (src/vectorstore.py) -/

/-- An embedding vector. Components are rationals standing for the floats
of the reference implementation. -/
abbrev Vec := List ℚ

/-- One metadata record, `{"text": text, "source": source, "chunk_id": i}`
as appended by `add_documents`. -/
structure Meta where
  text : String
  source : String
  chunk_id : Nat
deriving DecidableEq

/-- The in-memory state of `FAISSVectorStore`: the `IndexFlatL2` contents
(`index`, the stored vectors in insertion order) and the parallel
`metadata` list. -/
structure FAISSVectorStore where
  index : List Vec
  metadata : List Meta
deriving DecidableEq

/-- A freshly created store: empty `IndexFlatL2`, empty metadata list. -/
def emptyStore : FAISSVectorStore := { index := [], metadata := [] }

/-- `FAISSVectorStore.__init__`: if both the index file and the metadata
sidecar exist, read both (no further checks); otherwise create a new empty
index and empty metadata list. The two `Option` arguments model the
existence/contents of the two on-disk artifacts. -/
def initStore (indexFile : Option (List Vec)) (metaFile : Option (List Meta)) :
    FAISSVectorStore :=
  match indexFile, metaFile with
  | some iv, some ms => { index := iv, metadata := ms }
  | _, _ => emptyStore

/-- `FAISSVectorStore.add_documents(chunks, source)`: duplicate guard on
`source` first, then the empty-chunks guard, then append the embeddings of
all chunks to the index and one metadata record per chunk (with
`chunk_id = i` from `enumerate(chunks)`) to the metadata list. -/
def add_documents (model : String → Vec) (s : FAISSVectorStore)
    (chunks : List String) (source : String) : FAISSVectorStore :=
  if s.metadata.any fun m => m.source == source then s
  else if chunks.isEmpty then s
  else
    { index := s.index ++ chunks.map model,
      metadata := s.metadata ++ (pyEnumFrom 0 chunks).map fun p =>
        { text := p.2, source := source, chunk_id := p.1 } }

/-- Squared L2 distance between two vectors, the metric of `IndexFlatL2`. -/
def sqL2 (a b : Vec) : ℚ := ((a.zip b).map fun p => (p.1 - p.2) ^ 2).sum

/-- Comparison of (distance, position) pairs by distance, used to model the
ascending-distance order of FAISS search results. -/
def distLE (a b : ℚ × Nat) : Prop := a.1 ≤ b.1

instance : DecidableRel distLE := fun a b => inferInstanceAs (Decidable (a.1 ≤ b.1))

instance : IsTotal (ℚ × Nat) distLE := ⟨fun a b => le_total a.1 b.1⟩

instance : IsTrans (ℚ × Nat) distLE := ⟨fun _ _ _ h1 h2 => le_trans h1 h2⟩

/-- Model of `faiss.IndexFlatL2.search`: exact brute-force scan returning
the k nearest (squared-distance, position) pairs in ascending distance
order (stable in the original position order on ties). -/
def faissFlatL2Search (vecs : List Vec) (qemb : Vec) (k : Nat) : List (ℚ × Nat) :=
  (List.insertionSort distLE ((pyEnumFrom 0 vecs).map fun p => (sqL2 qemb p.2, p.1))).take k

/-- `FAISSVectorStore.search(query, top_k)`: empty-index short circuit,
then FAISS search with `min(top_k, ntotal)`, then the bounds-checked
metadata lookup `if 0 <= idx < len(self.metadata)` pairing each hit with
its distance. -/
def FAISSVectorStore.search (model : String → Vec) (s : FAISSVectorStore)
    (query : String) (top_k : Nat) : List (Meta × ℚ) :=
  if s.index.length = 0 then []
  else
    (faissFlatL2Search s.index (model query) (min top_k s.index.length)).filterMap
      fun di => (s.metadata[di.2]?).map fun m => (m, di.1)

/-- The record returned by `FAISSVectorStore.get_stats`. -/
structure Stats where
  total_chunks : Nat
  total_documents : Nat
  sources : List String
deriving DecidableEq

/-- `FAISSVectorStore.get_stats()`: `ntotal`, the number of distinct
sources in the metadata, and the list of distinct sources. -/
def get_stats (s : FAISSVectorStore) : Stats :=
  let sources := (s.metadata.map Meta.source).dedup
  { total_chunks := s.index.length,
    total_documents := sources.length,
    sources := sources }

/-! ## Chunker (src/ingestion.py) -/

/-- `DocumentIngestor` configuration (defaults 500/100). -/
structure DocumentIngestor where
  chunk_size : Nat := 500
  overlap : Nat := 100

/-- The loop step of `chunk_text`: `max(1, chunk_size - overlap)`. -/
def chunkStep (chunk_size overlap : Nat) : Nat := max 1 (chunk_size - overlap)

/-- One window's text: `" ".join(words[i:i + chunk_size]).strip()`. -/
def mkBlock (words : List String) (cs i : Nat) : String :=
  pyStrip (pyJoin " " ((words.drop i).take cs))

/-- The loop of `chunk_text`: `for i in range(0, len(words), step)`, keep
each window whose joined text has length greater than 50. -/
def chunkAux (words : List String) (cs ov : Nat) (i : Nat) : List String :=
  if _h : i < words.length then
    if 50 < (mkBlock words cs i).length then
      mkBlock words cs i :: chunkAux words cs ov (i + chunkStep cs ov)
    else chunkAux words cs ov (i + chunkStep cs ov)
  else []
termination_by words.length - i
decreasing_by
  all_goals
    have h1 : 1 ≤ chunkStep cs ov := Nat.le_max_left 1 (cs - ov)
    omega

/-- `DocumentIngestor.chunk_text(text)`. -/
def DocumentIngestor.chunk_text (d : DocumentIngestor) (text : String) : List String :=
  chunkAux (pySplit text) d.chunk_size d.overlap 0

/-- The word offsets visited by the `chunk_text` loop starting at `i`:
`i, i + step, i + 2*step, ...` while below `n = len(words)`. -/
def windowStartsFrom (n cs ov : Nat) (i : Nat) : List Nat :=
  if i < n then i :: windowStartsFrom n cs ov (i + chunkStep cs ov) else []
termination_by n - i
decreasing_by
  have h1 : 1 ≤ chunkStep cs ov := Nat.le_max_left 1 (cs - ov)
  omega

/-! ## Retriever (src/retrieval.py) -/

/-- The relevance score `sim = 1 / (1 + dist)` computed in both retrieval
methods. -/
def sim (dist : ℚ) : ℚ := 1 / (1 + dist)

/-- Model of Python `round(x, 2)` (rounding to hundredths; the reference
rounds at binary float precision, immaterial here). -/
def round2 (x : ℚ) : ℚ := (round (100 * x) : ℚ) / 100

/-- Model of the f-string formatting `f"{x:.2f}"` used in citations. -/
def fmt2 (x : ℚ) : String :=
  let n : Int := round (100 * x)
  toString (n / 100) ++ "." ++ (if n % 100 < 10 then "0" else "") ++ toString (n % 100)

/-- One context block: `f"[Source {i}: {source}, Chunk {chunk_id}]\n{text}"`. -/
def contextBlock (i : Nat) (m : Meta) : String :=
  "[Source " ++ toString i ++ ": " ++ m.source ++ ", Chunk " ++
    toString m.chunk_id ++ "]\n" ++ m.text

/-- One citation string:
`f"{source} (Chunk {chunk_id}, Relevance: {sim:.2f})"`. -/
def citationLine (m : Meta) (dist : ℚ) : String :=
  m.source ++ " (Chunk " ++ toString m.chunk_id ++ ", Relevance: " ++
    fmt2 (sim dist) ++ ")"

/-- `Retriever.retrieve(query, top_k)`: search, empty-result sentinel, then
the 1-indexed loop building context blocks and citation strings, joined by
the fixed delimiter. -/
def Retriever.retrieve (model : String → Vec) (s : FAISSVectorStore)
    (query : String) (top_k : Nat) : String × List String :=
  let results := s.search model query top_k
  if results.isEmpty then ("No relevant documents found.", [])
  else
    let context_parts := (pyEnumFrom 1 results).map fun p => contextBlock p.1 p.2.1
    let citations := (pyEnumFrom 1 results).map fun p => citationLine p.2.1 p.2.2
    (String.intercalate "\n\n---\n\n" context_parts, citations)

/-- The chunk record built by `retrieve_with_chunks` for the API response. -/
structure ChunkView where
  text : String
  source : String
  chunk_id : Nat
  relevance_score : ℚ
deriving DecidableEq

/-- `Retriever.retrieve_with_chunks(query, top_k)`: same search, same
sentinel, same context blocks and citations, plus one structured chunk
record per result with `relevance_score = round(sim, 2)`. -/
def Retriever.retrieve_with_chunks (model : String → Vec) (s : FAISSVectorStore)
    (query : String) (top_k : Nat) : List ChunkView × String × List String :=
  let results := s.search model query top_k
  if results.isEmpty then ([], "No relevant documents found.", [])
  else
    let chunks := results.map fun md =>
      { text := md.1.text, source := md.1.source, chunk_id := md.1.chunk_id,
        relevance_score := round2 (sim md.2) : ChunkView }
    let context_parts := (pyEnumFrom 1 results).map fun p => contextBlock p.1 p.2.1
    let citations := (pyEnumFrom 1 results).map fun p => citationLine p.2.1 p.2.2
    (chunks, String.intercalate "\n\n---\n\n" context_parts, citations)

/-! ## Ingestion endpoint (api.py) -/

/-- The caller-visible outcome of the `/ingest` endpoint: either an
`HTTPException(status, detail)` or the JSON success body
`{"status": "success", "filename": name, "chunks_created": n}`. -/
inductive IngestResult where
  | httpError (status : Nat) (detail : String)
  | success (filename : String) (chunks_created : Nat)
deriving DecidableEq

/-- The `/ingest` endpoint logic after text extraction and chunking: raise
400 on zero chunks, otherwise call `add_documents` and report success with
`chunks_created = len(chunks)`. -/
def apiIngest (model : String → Vec) (s : FAISSVectorStore)
    (chunks : List String) (name : String) : FAISSVectorStore × IngestResult :=
  if chunks.isEmpty then (s, .httpError 400 "No extractable text")
  else (add_documents model s chunks name, .success name chunks.length)

/-! ## Helper lemmas -/

theorem pyEnumFrom_map_snd (start : Nat) (l : List α) :
    (pyEnumFrom start l).map Prod.snd = l := by
  induction l generalizing start with
  | nil => rfl
  | cons a l ih => simp [pyEnumFrom, ih]

theorem pyEnumFrom_length (start : Nat) (l : List α) :
    (pyEnumFrom start l).length = l.length := by
  induction l generalizing start with
  | nil => rfl
  | cons a l ih => simp [pyEnumFrom, ih]

theorem fst_lt_of_mem_pyEnumFrom {start : Nat} {l : List α} {p : Nat × α}
    (hp : p ∈ pyEnumFrom start l) : p.1 < start + l.length := by
  induction l generalizing start with
  | nil => exact absurd hp (List.not_mem_nil p)
  | cons a l ih =>
    rcases List.mem_cons.mp hp with rfl | hp2
    · simp
    · have := ih hp2
      simp only [List.length_cons]
      omega

theorem filterMap_lookup_snd (md : List Meta) (l : List (ℚ × Nat))
    (h : ∀ x ∈ l, x.2 < md.length) :
    ((l.filterMap fun di => (md[di.2]?).map fun m => (m, di.1)).map Prod.snd) =
      l.map Prod.fst := by
  induction l with
  | nil => rfl
  | cons x xs ih =>
    have hx : x.2 < md.length := h x (List.mem_cons_self x xs)
    have hxs := fun y hy => h y (List.mem_cons_of_mem x hy)
    simp [List.filterMap_cons, List.getElem?_eq_getElem hx, ih hxs]

theorem filterMap_lookup_length (md : List Meta) (l : List (ℚ × Nat))
    (h : ∀ x ∈ l, x.2 < md.length) :
    (l.filterMap fun di => (md[di.2]?).map fun m => (m, di.1)).length = l.length := by
  induction l with
  | nil => rfl
  | cons x xs ih =>
    have hx : x.2 < md.length := h x (List.mem_cons_self x xs)
    have hxs := fun y hy => h y (List.mem_cons_of_mem x hy)
    simp [List.filterMap_cons, List.getElem?_eq_getElem hx, ih hxs]

/-- The alignment invariant: the stored vectors are exactly the embeddings
of the metadata texts, in order. -/
def aligned (model : String → Vec) (s : FAISSVectorStore) : Prop :=
  s.index = s.metadata.map fun m => model m.text

theorem aligned_empty (model : String → Vec) : aligned model emptyStore := rfl

theorem pyEnumFrom_meta_text (model : String → Vec) (source : String) (start : Nat)
    (chunks : List String) :
    (((pyEnumFrom start chunks).map fun p =>
        ({ text := p.2, source := source, chunk_id := p.1 } : Meta)).map
      fun m => model m.text) = chunks.map model := by
  induction chunks generalizing start with
  | nil => rfl
  | cons c cs ih => simp [pyEnumFrom, ih]

theorem aligned_add (model : String → Vec) (s : FAISSVectorStore)
    (chunks : List String) (source : String) (h : aligned model s) :
    aligned model (add_documents model s chunks source) := by
  unfold add_documents
  by_cases hdup : (s.metadata.any fun m => m.source == source) = true
  · simp only [hdup, if_true]
    exact h
  · simp only [eq_false_of_ne_true hdup, Bool.false_eq_true, if_false]
    by_cases hemp : chunks.isEmpty = true
    · simp only [hemp, if_true]
      exact h
    · simp only [eq_false_of_ne_true hemp, Bool.false_eq_true, if_false]
      unfold aligned at h ⊢
      simp only [List.map_append, h]
      congr 1
      exact (pyEnumFrom_meta_text model source 0 chunks).symm

/-- The store reached by a sequence of `add_documents` calls starting from
a fresh empty index. -/
def runAdds (model : String → Vec) (ops : List (List String × String)) :
    FAISSVectorStore :=
  ops.foldl (fun s op => add_documents model s op.1 op.2) emptyStore

theorem aligned_runAdds (model : String → Vec) (ops : List (List String × String)) :
    aligned model (runAdds model ops) := by
  suffices H : ∀ s, aligned model s →
      aligned model (ops.foldl (fun s op => add_documents model s op.1 op.2) s) by
    exact H emptyStore (aligned_empty model)
  induction ops with
  | nil => intro s hs; exact hs
  | cons op ops ih =>
    intro s hs
    exact ih _ (aligned_add model s op.1 op.2 hs)

/-! ## Claim C1 -/

/-- C1: Parallel-array alignment invariant. For every sequence of
`add_documents` calls starting from an empty index, the stored vectors are
exactly the embeddings of the metadata texts in the same order: the vector
list equals the metadata list mapped through the model, the two lengths
agree, position i of the index corresponds to position i of the metadata
list for every i, and persisting and reloading the pair reproduces the same
store. -/
theorem c1_parallel_alignment (model : String → Vec)
    (ops : List (List String × String)) :
    (runAdds model ops).index = (runAdds model ops).metadata.map (fun m => model m.text)
    ∧ (runAdds model ops).index.length = (runAdds model ops).metadata.length
    ∧ (∀ i : Nat, (runAdds model ops).index[i]? =
        ((runAdds model ops).metadata[i]?).map fun m => model m.text)
    ∧ initStore (some (runAdds model ops).index) (some (runAdds model ops).metadata)
        = runAdds model ops := by
  have h := aligned_runAdds model ops
  unfold aligned at h
  refine ⟨h, ?_, ?_, rfl⟩
  · rw [h, List.length_map]
  · intro i
    rw [h, List.getElem?_map]

/-! ## Claim C2 -/

/-- C2 counterexample: loading with both artifacts present performs no
consistency verification. With an index file holding one vector and a
metadata sidecar holding an empty list, `__init__` succeeds and returns a
store whose vector count (1) differs from its metadata length (0) — no
`IndexConsistencyError` exists in the code. With only one artifact present,
a fresh empty index is silently created instead of an error being raised. -/
theorem c2_load_verification_counterexample :
    (initStore (some [[(1 : ℚ)]]) (some [])).index.length = 1
    ∧ (initStore (some [[(1 : ℚ)]]) (some [])).metadata.length = 0
    ∧ (initStore (some [[(1 : ℚ)]]) (some [])).index.length ≠
        (initStore (some [[(1 : ℚ)]]) (some [])).metadata.length
    ∧ initStore (some [[(1 : ℚ)]]) none = emptyStore
    ∧ initStore none (some [{ text := "t", source := "s", chunk_id := 0 }]) = emptyStore := by
  refine ⟨rfl, rfl, by decide, rfl, rfl⟩

/-- C2 amended: on construction the implementation loads both artifacts
verbatim whenever both exist — without verifying that the vector count
equals the metadata length, so a disagreement is accepted silently — and
whenever at most one artifact exists it silently creates a fresh empty
index; no consistency error is surfaced in any case. -/
theorem c2_load_no_verification (iv : List Vec) (ms : List Meta) :
    initStore (some iv) (some ms) = { index := iv, metadata := ms }
    ∧ initStore (some iv) none = emptyStore
    ∧ initStore none (some ms) = emptyStore
    ∧ initStore none none = emptyStore :=
  ⟨rfl, rfl, rfl, rfl⟩

/-! ## Claim C4 -/

/-- C4: source-level dedup. If the source identifier already occurs among
the stored metadata, a repeat `add_documents` call for that source is a
no-op: the whole store (vector index and metadata list) is returned
unchanged, and in particular `get_stats` — including `total_documents` —
is unchanged; no error is raised (the function returns normally). -/
theorem c4_dedup_noop (model : String → Vec) (s : FAISSVectorStore)
    (chunks : List String) (source : String)
    (h : (s.metadata.any fun m => m.source == source) = true) :
    add_documents model s chunks source = s
    ∧ (add_documents model s chunks source).index = s.index
    ∧ (add_documents model s chunks source).metadata = s.metadata
    ∧ get_stats (add_documents model s chunks source) = get_stats s := by
  have heq : add_documents model s chunks source = s := by
    unfold add_documents
    rw [if_pos h]
  exact ⟨heq, by rw [heq], by rw [heq], by rw [heq]⟩

/-- A concrete model of the embedding provider used by the concrete
witnesses: every text embeds to the one-dimensional vector [1]. -/
def cModel : String → Vec := fun _ => [1]

/-- A concrete store holding one chunk of source "policy.txt". -/
def policyStore : FAISSVectorStore :=
  add_documents cModel emptyStore ["policy chunk body text"] "policy.txt"

/-- C4 witness: the dedup hypothesis holds for the concrete store
`policyStore` and source "policy.txt", and the repeat call is a no-op. -/
theorem c4_dedup_noop_witness :
    ((policyStore.metadata.any fun m => m.source == "policy.txt") = true)
    ∧ (add_documents cModel policyStore ["other"] "policy.txt" = policyStore
      ∧ (add_documents cModel policyStore ["other"] "policy.txt").index = policyStore.index
      ∧ (add_documents cModel policyStore ["other"] "policy.txt").metadata = policyStore.metadata
      ∧ get_stats (add_documents cModel policyStore ["other"] "policy.txt") = get_stats policyStore) :=
  ⟨by decide, c4_dedup_noop cModel policyStore ["other"] "policy.txt" (by decide)⟩

/-! ## Chunker lemmas -/

theorem chunkAux_mem_len (words : List String) (cs ov i : Nat) :
    ∀ c ∈ chunkAux words cs ov i, 50 < c.length := by
  induction i using chunkAux.induct words cs ov with
  | case1 x hx hb ih =>
    intro c hc
    rw [chunkAux] at hc
    simp only [dif_pos hx, if_pos hb, List.mem_cons] at hc
    rcases hc with rfl | hc
    · exact hb
    · exact ih c hc
  | case2 x hx hb ih =>
    intro c hc
    rw [chunkAux] at hc
    simp only [dif_pos hx, if_neg hb] at hc
    exact ih c hc
  | case3 x hx =>
    intro c hc
    rw [chunkAux] at hc
    simp only [dif_neg hx] at hc
    exact absurd hc (List.not_mem_nil c)

theorem chunkAux_eq_windows (words : List String) (cs ov i : Nat) :
    chunkAux words cs ov i =
      (windowStartsFrom words.length cs ov i).filterMap fun j =>
        if 50 < (mkBlock words cs j).length then some (mkBlock words cs j) else none := by
  induction i using chunkAux.induct words cs ov with
  | case1 x hx hb ih =>
    rw [chunkAux, windowStartsFrom]
    simp only [dif_pos hx, if_pos hx, if_pos hb, List.filterMap_cons, ih]
  | case2 x hx hb ih =>
    rw [chunkAux, windowStartsFrom]
    simp only [dif_pos hx, if_pos hx, if_neg hb, List.filterMap_cons, ih]
  | case3 x hx =>
    rw [chunkAux, windowStartsFrom]
    simp only [dif_neg hx, if_neg hx, List.filterMap_nil]

theorem windowStarts_1200 : windowStartsFrom 1200 500 100 0 = [0, 400, 800] := by
  have hs : chunkStep 500 100 = 400 := by simp [chunkStep]
  have h1 : windowStartsFrom 1200 500 100 1200 = [] := by
    rw [windowStartsFrom]; norm_num
  have h2 : windowStartsFrom 1200 500 100 800 = [800] := by
    rw [windowStartsFrom]; norm_num [hs, h1]
  have h3 : windowStartsFrom 1200 500 100 400 = [400, 800] := by
    rw [windowStartsFrom]; norm_num [hs, h2]
  rw [windowStartsFrom]; norm_num [hs, h3]

/-! ## Claim C6 -/

/-- C6: chunker window placement. `chunk_text` splits the text on
whitespace into words and filters the windows of `chunk_size` words taken
at the offsets `0, step, 2*step, ...` (`windowStartsFrom`), with
`step = max(1, chunk_size - overlap)`; for chunk_size 500 and overlap 100
the step is 400, on a 1200-word text the window offsets are 0, 400 and
800, and the window starting at 400 shares its first 100 words with the
last 100 words of the window starting at 0. -/
theorem c6_window_placement (words : List String) (h : words.length = 1200) :
    (∀ d : DocumentIngestor, ∀ text : String,
      d.chunk_text text = chunkAux (pySplit text) d.chunk_size d.overlap 0)
    ∧ chunkStep 500 100 = 400
    ∧ (∀ ws : List String, ∀ cs ov : Nat, chunkAux ws cs ov 0 =
        (windowStartsFrom ws.length cs ov 0).filterMap fun j =>
          if 50 < (mkBlock ws cs j).length then some (mkBlock ws cs j) else none)
    ∧ windowStartsFrom words.length 500 100 0 = [0, 400, 800]
    ∧ ((words.drop 400).take 500).take 100 = ((words.drop 0).take 500).drop 400 := by
  refine ⟨fun d text => rfl, by simp [chunkStep], ?_, ?_, ?_⟩
  · intro ws cs ov
    exact chunkAux_eq_windows ws cs ov 0
  · rw [h]
    exact windowStarts_1200
  · simp [List.take_drop, List.take_take]

/-- C6 witness: a concrete 1200-word text. -/
theorem c6_window_placement_witness :
    (List.replicate 1200 "w").length = 1200
    ∧ ((∀ d : DocumentIngestor, ∀ text : String,
        d.chunk_text text = chunkAux (pySplit text) d.chunk_size d.overlap 0)
      ∧ chunkStep 500 100 = 400
      ∧ (∀ ws : List String, ∀ cs ov : Nat, chunkAux ws cs ov 0 =
          (windowStartsFrom ws.length cs ov 0).filterMap fun j =>
            if 50 < (mkBlock ws cs j).length then some (mkBlock ws cs j) else none)
      ∧ windowStartsFrom (List.replicate 1200 "w").length 500 100 0 = [0, 400, 800]
      ∧ (((List.replicate 1200 "w").drop 400).take 500).take 100 =
          (((List.replicate 1200 "w").drop 0).take 500).drop 400) :=
  ⟨List.length_replicate 1200 "w",
    c6_window_placement (List.replicate 1200 "w") (List.length_replicate 1200 "w")⟩

/-! ## Claim C7 -/

/-- C7: chunk length invariant. Every chunk produced by `chunk_text` has
text length strictly greater than 50 characters (shorter windows are
discarded), and `chunk_text` applied to the empty string produces the
empty list rather than an error. -/
theorem c7_chunk_length_invariant (d : DocumentIngestor) :
    (∀ text : String,
      ((d.chunk_text text).all fun c => decide (50 < c.length)) = true)
    ∧ d.chunk_text "" = [] := by
  constructor
  · intro text
    rw [List.all_eq_true]
    intro c hc
    exact decide_eq_true (chunkAux_mem_len (pySplit text) d.chunk_size d.overlap 0 c hc)
  · show chunkAux (pySplit "") d.chunk_size d.overlap 0 = []
    have hsplit : pySplit "" = [] := rfl
    rw [hsplit, chunkAux]
    simp

/-! ## Claim C5 -/

/-- C5: search result count and order. On a store whose metadata list and
vector index agree in length (the alignment invariant), `search` returns
exactly `min k n` results for an index of `n` vectors, the returned
distances are in ascending order, and they are the nearest: the multiset
of all squared L2 distances from the query embedding splits into the
returned distances plus a remainder in which every element is at least
every returned distance. On a zero-vector index, search returns the empty
list without error. -/
theorem c5_search_topk (model : String → Vec) (s : FAISSVectorStore)
    (query : String) (k : Nat) (h : s.metadata.length = s.index.length) :
    (s.search model query k).length = min k s.index.length
    ∧ List.Sorted (· ≤ ·) ((s.search model query k).map Prod.snd)
    ∧ (∃ dropped : List ℚ,
        (s.index.map (sqL2 (model query))).Perm
          (((s.search model query k).map Prod.snd) ++ dropped)
        ∧ ∀ a ∈ (s.search model query k).map Prod.snd, ∀ b ∈ dropped, a ≤ b)
    ∧ (s.index = [] → s.search model query k = []) := by
  by_cases hn : s.index.length = 0
  · have hidx : s.index = [] := List.length_eq_zero.mp hn
    have hsearch : s.search model query k = [] := by
      unfold FAISSVectorStore.search
      rw [if_pos hn]
    refine ⟨?_, ?_, ⟨[], ?_, ?_⟩, fun _ => hsearch⟩
    · rw [hsearch, hn]
      simp
    · rw [hsearch]
      simp [List.Sorted]
    · rw [hsearch, hidx]
      simp
    · rw [hsearch]
      simp
  · have hsearch : s.search model query k =
        ((List.insertionSort distLE
            ((pyEnumFrom 0 s.index).map fun p => (sqL2 (model query) p.2, p.1))).take
          (min k s.index.length)).filterMap
          fun di => (s.metadata[di.2]?).map fun m => (m, di.1) := by
      unfold FAISSVectorStore.search faissFlatL2Search
      rw [if_neg hn]
    have hpairslen : ((pyEnumFrom 0 s.index).map fun p => (sqL2 (model query) p.2, p.1)).length
        = s.index.length := by
      rw [List.length_map, pyEnumFrom_length]
    have hperm := List.perm_insertionSort distLE
      ((pyEnumFrom 0 s.index).map fun p => (sqL2 (model query) p.2, p.1))
    have hsortlen : (List.insertionSort distLE
        ((pyEnumFrom 0 s.index).map fun p => (sqL2 (model query) p.2, p.1))).length
        = s.index.length := by
      rw [hperm.length_eq, hpairslen]
    have hsorted : List.Sorted distLE (List.insertionSort distLE
        ((pyEnumFrom 0 s.index).map fun p => (sqL2 (model query) p.2, p.1))) :=
      List.sorted_insertionSort distLE _
    have hmemlt : ∀ x ∈ (List.insertionSort distLE
        ((pyEnumFrom 0 s.index).map fun p => (sqL2 (model query) p.2, p.1))).take
          (min k s.index.length), x.2 < s.metadata.length := by
      intro x hx
      have hx1 := List.mem_of_mem_take hx
      have hx2 := hperm.mem_iff.mp hx1
      rcases List.mem_map.mp hx2 with ⟨p, hp, rfl⟩
      have hlt := fst_lt_of_mem_pyEnumFrom hp
      simp only [Nat.zero_add] at hlt
      rw [h]
      exact hlt
    refine ⟨?_, ?_, ?_, ?_⟩
    · rw [hsearch, filterMap_lookup_length _ _ hmemlt, List.length_take, hsortlen]
      omega
    · rw [hsearch, filterMap_lookup_snd _ _ hmemlt]
      have htake : List.Sorted distLE ((List.insertionSort distLE
          ((pyEnumFrom 0 s.index).map fun p => (sqL2 (model query) p.2, p.1))).take
            (min k s.index.length)) :=
        hsorted.sublist (List.take_sublist _ _)
      exact List.pairwise_map.mpr htake
    · refine ⟨((List.insertionSort distLE
          ((pyEnumFrom 0 s.index).map fun p => (sqL2 (model query) p.2, p.1))).drop
            (min k s.index.length)).map Prod.fst, ?_, ?_⟩
      · rw [hsearch, filterMap_lookup_snd _ _ hmemlt]
        have hfst : s.index.map (sqL2 (model query)) =
            ((pyEnumFrom 0 s.index).map fun p => (sqL2 (model query) p.2, p.1)).map Prod.fst := by
          conv_lhs => rw [← pyEnumFrom_map_snd 0 s.index]
          rw [List.map_map, List.map_map]
          rfl
        rw [hfst, ← List.map_append, List.take_append_drop]
        exact (hperm.symm).map Prod.fst
      · intro a ha b hb
        rw [hsearch, filterMap_lookup_snd _ _ hmemlt] at ha
        rcases List.mem_map.mp ha with ⟨x, hx, rfl⟩
        rcases List.mem_map.mp hb with ⟨y, hy, rfl⟩
        have hpw : List.Pairwise distLE
            (((List.insertionSort distLE
              ((pyEnumFrom 0 s.index).map fun p => (sqL2 (model query) p.2, p.1))).take
                (min k s.index.length)) ++
            ((List.insertionSort distLE
              ((pyEnumFrom 0 s.index).map fun p => (sqL2 (model query) p.2, p.1))).drop
                (min k s.index.length))) := by
          rw [List.take_append_drop]
          exact hsorted
        exact (List.pairwise_append.mp hpw).2.2 x hx y hy
    · intro hidx
      exact absurd (by rw [hidx]; rfl) hn

/-- A concrete three-vector store with aligned metadata, for the search
witness. -/
def threeStore : FAISSVectorStore :=
  { index := [[0], [2], [1]],
    metadata := [{ text := "t0", source := "s", chunk_id := 0 },
                 { text := "t1", source := "s", chunk_id := 1 },
                 { text := "t2", source := "s", chunk_id := 2 }] }

/-- C5 witness: on the concrete three-vector store with k = 10, the
alignment hypothesis holds and the search contract follows; in particular
exactly min 10 3 = 3 results come back. -/
theorem c5_search_topk_witness :
    threeStore.metadata.length = threeStore.index.length
    ∧ ((threeStore.search cModel "q" 10).length = min 10 threeStore.index.length
      ∧ List.Sorted (· ≤ ·) ((threeStore.search cModel "q" 10).map Prod.snd)
      ∧ (∃ dropped : List ℚ,
          (threeStore.index.map (sqL2 (cModel "q"))).Perm
            (((threeStore.search cModel "q" 10).map Prod.snd) ++ dropped)
          ∧ ∀ a ∈ (threeStore.search cModel "q" 10).map Prod.snd, ∀ b ∈ dropped, a ≤ b)
      ∧ (threeStore.index = [] → threeStore.search cModel "q" 10 = [])) :=
  ⟨rfl, c5_search_topk cModel threeStore "q" 10 rfl⟩

/-! ## Claim C8 -/

/-- C8: relevance score law. The score computed by the retriever is
`sim d = 1 / (1 + d)`; it is strictly decreasing in the distance, lies in
(0, 1] for every nonnegative distance, and equals 1 exactly when the
distance is 0. -/
theorem c8_relevance_score (d1 d2 : ℚ) (h0 : 0 ≤ d1) (h12 : d1 < d2) :
    sim d2 < sim d1
    ∧ (∀ d : ℚ, 0 ≤ d → 0 < sim d ∧ sim d ≤ 1)
    ∧ (∀ d : ℚ, 0 ≤ d → (sim d = 1 ↔ d = 0)) := by
  refine ⟨?_, ?_, ?_⟩
  · have h1 : (0 : ℚ) < 1 + d1 := by linarith
    have h2 : (1 : ℚ) + d1 < 1 + d2 := by linarith
    exact one_div_lt_one_div_of_lt h1 h2
  · intro d hd
    have h1 : (0 : ℚ) < 1 + d := by linarith
    constructor
    · unfold sim
      positivity
    · unfold sim
      rw [div_le_one h1]
      linarith
  · intro d hd
    have h1 : (0 : ℚ) < 1 + d := by linarith
    unfold sim
    rw [div_eq_one_iff_eq h1.ne']
    constructor
    · intro hone
      linarith
    · intro hzero
      rw [hzero]
      ring

/-- C8 witness: at the concrete distances 0 and 1 the hypotheses hold, and
the score law follows; in particular sim 1 = 1/2 < 1 = sim 0. -/
theorem c8_relevance_score_witness :
    (0 : ℚ) ≤ 0 ∧ (0 : ℚ) < 1
    ∧ (sim 1 < sim 0
      ∧ (∀ d : ℚ, 0 ≤ d → 0 < sim d ∧ sim d ≤ 1)
      ∧ (∀ d : ℚ, 0 ≤ d → (sim d = 1 ↔ d = 0))) :=
  ⟨le_refl 0, by norm_num, c8_relevance_score 0 1 (le_refl 0) (by norm_num)⟩

/-! ## Claim C9 -/

/-- C9: empty-index retrieval sentinel. Whenever the underlying search
yields no results — in particular against any store holding zero vectors —
`Retriever.retrieve` returns exactly the sentinel pair
("No relevant documents found.", []) and no error. -/
theorem c9_empty_sentinel (model : String → Vec) (s : FAISSVectorStore)
    (query : String) (top_k : Nat) (h : s.search model query top_k = []) :
    Retriever.retrieve model s query top_k = ("No relevant documents found.", [])
    ∧ ∀ (meta : List Meta) (q2 : String) (k2 : Nat),
        Retriever.retrieve model { index := [], metadata := meta } q2 k2 =
          ("No relevant documents found.", []) := by
  constructor
  · unfold Retriever.retrieve
    rw [h]
    rfl
  · intro meta q2 k2
    have hs : FAISSVectorStore.search model { index := [], metadata := meta } q2 k2 = [] := by
      unfold FAISSVectorStore.search
      rfl
    unfold Retriever.retrieve
    rw [hs]
    rfl

/-- C9 witness: the sentinel at the concrete empty store. -/
theorem c9_empty_sentinel_witness :
    emptyStore.search cModel "vacation policy" 3 = []
    ∧ (Retriever.retrieve cModel emptyStore "vacation policy" 3 =
        ("No relevant documents found.", [])
      ∧ ∀ (meta : List Meta) (q2 : String) (k2 : Nat),
          Retriever.retrieve cModel { index := [], metadata := meta } q2 k2 =
            ("No relevant documents found.", [])) :=
  ⟨rfl, c9_empty_sentinel cModel emptyStore "vacation policy" 3 rfl⟩

/-! ## Claim C10 -/

/-- C10: agreement of the two retrieval variants. For every model, store,
query and top_k, `retrieve_with_chunks` returns the identical context
string and identical citations list as `retrieve`, and its chunk records
are exactly the ranked search results re-packaged with
`relevance_score = round2 (sim distance)`. -/
theorem c10_variants_agree (model : String → Vec) (s : FAISSVectorStore)
    (query : String) (top_k : Nat) :
    (Retriever.retrieve_with_chunks model s query top_k).2.1 =
      (Retriever.retrieve model s query top_k).1
    ∧ (Retriever.retrieve_with_chunks model s query top_k).2.2 =
        (Retriever.retrieve model s query top_k).2
    ∧ (Retriever.retrieve_with_chunks model s query top_k).1 =
        (s.search model query top_k).map fun md =>
          { text := md.1.text, source := md.1.source, chunk_id := md.1.chunk_id,
            relevance_score := round2 (sim md.2) } := by
  by_cases hres : (s.search model query top_k).isEmpty
  · have hnil : s.search model query top_k = [] := List.isEmpty_iff.mp hres
    simp [Retriever.retrieve, Retriever.retrieve_with_chunks, hnil]
  · simp only [Bool.not_eq_true] at hres
    simp only [Retriever.retrieve, Retriever.retrieve_with_chunks, hres,
      Bool.false_eq_true, if_false]
    exact ⟨trivial, trivial, trivial⟩


/-! ## Claim C3 -/

/-- C3 counterexample: the ingestion endpoint does not expose a distinct
duplicate-skip outcome. Ingesting the same chunk list for the same source
twice, the second (duplicate) call leaves the store unchanged yet reports
exactly the same success outcome — filename plus chunks_created =
len(chunks) — as the first (adding) call, so a caller cannot tell a
duplicate skip apart from a successful addition. -/
theorem c3_outcomes_counterexample :
    (apiIngest cModel policyStore ["policy chunk body text"] "policy.txt").2 =
      (apiIngest cModel emptyStore ["policy chunk body text"] "policy.txt").2
    ∧ (apiIngest cModel policyStore ["policy chunk body text"] "policy.txt").1 = policyStore
    ∧ (apiIngest cModel emptyStore ["policy chunk body text"] "policy.txt").1 = policyStore := by
  refine ⟨by decide, by decide, by decide⟩

/-- C3 amended: the ingestion endpoint distinguishes exactly two outcomes:
a 400 "No extractable text" error when the document yields zero chunks,
and a success report with chunks_created = len(chunks) otherwise. A
repeat ingestion of an already-indexed source is skipped in the store (the
store is unchanged) but is reported with that same success outcome, not
with a distinct skip outcome. -/
theorem c3_two_outcomes (model : String → Vec) (s : FAISSVectorStore)
    (chunks : List String) (name : String) (hne : chunks.isEmpty = false)
    (hdup : (s.metadata.any fun m => m.source == name) = true) :
    apiIngest model s [] name = (s, .httpError 400 "No extractable text")
    ∧ (apiIngest model s chunks name).2 = .success name chunks.length
    ∧ (apiIngest model s chunks name).1 = s
    ∧ (apiIngest model emptyStore chunks name).2 = .success name chunks.length := by
  refine ⟨rfl, ?_, ?_, ?_⟩
  · unfold apiIngest
    rw [hne]
    rfl
  · unfold apiIngest
    rw [hne]
    simp only [Bool.false_eq_true, if_false]
    show add_documents model s chunks name = s
    unfold add_documents
    rw [if_pos hdup]
  · unfold apiIngest
    rw [hne]
    rfl

/-- C3 witness: concrete duplicate ingestion of "policy.txt". -/
theorem c3_two_outcomes_witness :
    (["policy chunk body text"] : List String).isEmpty = false
    ∧ (policyStore.metadata.any fun m => m.source == "policy.txt") = true
    ∧ (apiIngest cModel policyStore [] "policy.txt" =
        (policyStore, .httpError 400 "No extractable text")
      ∧ (apiIngest cModel policyStore ["policy chunk body text"] "policy.txt").2 =
          .success "policy.txt" (["policy chunk body text"] : List String).length
      ∧ (apiIngest cModel policyStore ["policy chunk body text"] "policy.txt").1 = policyStore
      ∧ (apiIngest cModel emptyStore ["policy chunk body text"] "policy.txt").2 =
          .success "policy.txt" (["policy chunk body text"] : List String).length) :=
  ⟨rfl, by decide,
    c3_two_outcomes cModel policyStore ["policy chunk body text"] "policy.txt" rfl (by decide)⟩
